import Mathlib

/-!
Shallow embedding of the Advent-of-Code leaderboard subsystem of
src/bot/cogs/adventofcode.py.

JSON values are modelled by an inductive type; Python dicts are association
lists in insertion order (Python 3.7+ dicts iterate in insertion order and
have no duplicate keys).  Python exceptions are modelled by an explicit error
type carried in Except; the spec's InvalidInputError is the source's
ValueError.  Wall-clock time (datetime.utcnow) is passed in explicitly as a
natural number.
-/

inductive Json where
  | null
  | bool (b : Bool)
  | num (n : Int)
  | str (s : String)
  | arr (elems : List Json)
  | obj (entries : List (String × Json))

/-- Whether a JSON value is a mapping (a Python dict). -/
def Json.isObj : Json → Bool
  | .obj _ => true
  | _ => false

/-- The Python exception kinds raised by the embedded code.  The spec's
InvalidInputError names the source's ValueError. -/
inductive PyError where
  | keyError
  | typeError
  | valueError
  | indexError
  | attributeError
deriving DecidableEq

/-- Python truthiness, as used by the source in conditions such as
the name fallback of member_from_json. -/
def pyTruthy : Json → Bool
  | .null => false
  | .bool b => b
  | .num n => n != 0
  | .str s => s != ""
  | .arr elems => !elems.isEmpty
  | .obj entries => !entries.isEmpty

/-- Python dict subscription d[k]: KeyError when the key is missing,
TypeError when the value is not a dict. -/
def getItem : Json → String → Except PyError Json
  | .obj entries, k =>
    match entries.lookup k with
    | some v => .ok v
    | none => .error .keyError
  | _, _ => .error .typeError

/-- Value of an unsigned decimal digit string, none when empty or when a
non-digit occurs. -/
def digitsVal (ds : List Char) : Option Nat :=
  if ds.isEmpty then none
  else if ds.all Char.isDigit then
    some (ds.foldl (fun n c => n * 10 + (c.toNat - 48)) 0)
  else none

/-- Model of Python int(s) on a string: an optional sign followed by decimal
digits.  (The source only ever feeds canonical digit strings here; exotic
accepted spellings of CPython such as surrounding whitespace or underscores
are out of scope of the spec and are not modelled.) -/
def pyParseInt (s : String) : Option Int :=
  match s.data with
  | '-' :: ds => (digitsVal ds).map (fun n => -(n : Int))
  | '+' :: ds => (digitsVal ds).map (fun n => (n : Int))
  | ds => (digitsVal ds).map (fun n => (n : Int))

/-- Model of Python int(x) as applied by the source to the raw id field:
ints pass through, strings are parsed (ValueError on failure), bools
coerce, anything else is a TypeError. -/
def pyInt : Json → Except PyError Int
  | .num n => .ok n
  | .str s =>
    match pyParseInt s with
    | some n => .ok n
    | none => .error .valueError
  | .bool b => .ok (if b then 1 else 0)
  | _ => .error .typeError

/-- Read a JSON value that must already be an integer.  The source stores the
raw local_score and later compares scores with the < of int when sorting, so
a well-typed build requires an integer here. -/
def jsonAsInt : Json → Except PyError Int
  | .num n => .ok n
  | _ => .error .typeError

/-- Python d.keys() on a JSON value: AttributeError when it is not a dict. -/
def dictKeys : Json → Except PyError (List String)
  | .obj entries => .ok (entries.map Prod.fst)
  | _ => .error .attributeError

/-- Python list assignment l[i] = x: negative indices count from the end,
out-of-range indices are an IndexError (modelled as none). -/
def pySet {α : Type} (l : List α) (i : Int) (x : α) : Option (List α) :=
  let j : Int := if i < 0 then (l.length : Int) + i else i
  if 0 ≤ j ∧ j < (l.length : Int) then some (l.set j.toNat x) else none

/-- Python slice l[:n]: negative n counts from the end, overshooting n is
clamped to the whole list. -/
def pySliceTo {α : Type} (l : List α) (n : Int) : List α :=
  l.take (if n < 0 then ((l.length : Int) + n).toNat else n.toNat)

/-- Star-level-2 membership test of the starboard loop, as a function of the
raw per-day JSON value: the source tests whether the string key 2 occurs in
injson[day].keys(). -/
def hasStar2 : Json → Bool
  | .obj entries => (entries.map Prod.fst).contains ("2")
  | _ => false

/-- The AocMember class.  Fields that the source merely stores (name, stars,
global_score) keep their raw JSON values; aoc_id is the int() coercion of the
raw id and local_score must be an integer (it is the sort key). -/
structure AocMember where
  name : Json
  aoc_id : Int
  stars : Json
  starboard : List (Bool × Bool)
  local_score : Int
  global_score : Json
  completions : Nat × Nat

namespace AocMember

/-- AocMember._completions_from_starboard: fold over the starboard counting
first-star and second-star completions. -/
def completions_from_starboard (starboard : List (Bool × Bool)) : Nat × Nat :=
  starboard.foldl
    (fun completions day =>
      ((if day.1 then completions.1 + 1 else completions.1),
       (if day.2 then completions.2 + 1 else completions.2)))
    (0, 0)

/-- AocMember.__init__: stores the six fields and derives completions from
the starboard. -/
def ofFields (name : Json) (aoc_id : Int) (stars : Json)
    (starboard : List (Bool × Bool)) (local_score : Int) (global_score : Json) :
    AocMember :=
  { name := name, aoc_id := aoc_id, stars := stars, starboard := starboard,
    local_score := local_score, global_score := global_score,
    completions := completions_from_starboard starboard }

/-- The day-iteration of AocMember._starboard_from_json: for each entry the
source computes idx = int(day) - 1 (ValueError on a non-numeric key), tests
membership of the key 2 in injson[day].keys() (AttributeError on a non-dict
value), and assigns starboard[idx] (IndexError when idx is out of range,
negative idx counting from the end). -/
def starboardLoop : List (String × Json) → List (Bool × Bool) →
    Except PyError (List (Bool × Bool))
  | [], starboard => .ok starboard
  | (day, dayVal) :: rest, starboard =>
    match pyParseInt day with
    | none => .error .valueError
    | some d =>
      match dictKeys dayVal with
      | .error e => .error e
      | .ok levels =>
        match pySet starboard (d - 1) (true, levels.contains ("2")) with
        | some starboard2 => starboardLoop rest starboard2
        | none => .error .indexError

/-- AocMember._starboard_from_json: reject non-dict input with ValueError,
start from 25 slots of (False, False) and run the day loop. -/
def starboard_from_json (injson : Json) : Except PyError (List (Bool × Bool)) :=
  match injson with
  | .obj entries => starboardLoop entries (List.replicate 25 (false, false))
  | _ => .error .valueError

/-- AocMember.member_from_json: field accesses and conversions in the source's
keyword-argument evaluation order (name, id, stars, completion_day_level,
local_score, global_score). -/
def member_from_json (injson : Json) : Except PyError AocMember :=
  match getItem injson ("name") with
  | .error e => .error e
  | .ok nameVal =>
    match getItem injson ("id") with
    | .error e => .error e
    | .ok idVal =>
      match pyInt idVal with
      | .error e => .error e
      | .ok aoc_id =>
        match getItem injson ("stars") with
        | .error e => .error e
        | .ok stars =>
          match getItem injson ("completion_day_level") with
          | .error e => .error e
          | .ok cdl =>
            match starboard_from_json cdl with
            | .error e => .error e
            | .ok starboard =>
              match getItem injson ("local_score") with
              | .error e => .error e
              | .ok lsVal =>
                match jsonAsInt lsVal with
                | .error e => .error e
                | .ok local_score =>
                  match getItem injson ("global_score") with
                  | .error e => .error e
                  | .ok global_score =>
                    .ok (ofFields
                      (if pyTruthy nameVal then nameVal
                       else Json.str ("Anonymous User"))
                      aoc_id stars starboard local_score global_score)

end AocMember

/-- Python list comprehension over an Except-producing function: the first
failure propagates, otherwise the results are collected in order. -/
def mapExcept {α β : Type} (f : α → Except PyError β) :
    List α → Except PyError (List β)
  | [] => .ok []
  | a :: rest =>
    match f a with
    | .error e => .error e
    | .ok b =>
      match mapExcept f rest with
      | .error e => .error e
      | .ok bs => .ok (b :: bs)

/-- Stable insertion for the descending sort by local_score: the inserted
element is earlier in the original list than everything already sorted, so it
goes before the first element whose score is not strictly greater. -/
def insertByScore (a : AocMember) : List AocMember → List AocMember
  | [] => [a]
  | b :: rest =>
    if a.local_score < b.local_score then b :: insertByScore a rest
    else a :: b :: rest

/-- The source sorts with Python's list.sort(key, reverse=True), a stable
descending sort by local_score.  Any stable sorting algorithm with that
ordering computes the same list; this insertion sort is such an algorithm. -/
def sortByScore : List AocMember → List AocMember
  | [] => []
  | a :: rest => insertByScore a (sortByScore rest)

/-- The AocLeaderboard class.  owner_id and event_year are stored as raw JSON
(the source copies them through); last_updated is set by __init__ from
datetime.utcnow(), passed in here as an explicit now argument. -/
structure AocLeaderboard where
  members : List AocMember
  owner_id : Json
  event_year : Json
  last_updated : Nat

namespace AocLeaderboard

/-- AocLeaderboard._sorted_members: build one AocMember per entry of the
members mapping in insertion order, then sort by local_score descending. -/
def sorted_members (injson : Json) : Except PyError (List AocMember) :=
  match injson with
  | .obj entries =>
    match mapExcept (fun entry => AocMember.member_from_json entry.2) entries with
    | .error e => .error e
    | .ok members => .ok (sortByScore members)
  | _ => .error .typeError

/-- AocLeaderboard.from_json: keyword arguments are evaluated left to right,
so injson[members] is read and sorted before owner_id and event; __init__
then stamps last_updated with the construction time. -/
def from_json (injson : Json) (now : Nat) : Except PyError AocLeaderboard :=
  match getItem injson ("members") with
  | .error e => .error e
  | .ok membersJson =>
    match sorted_members membersJson with
    | .error e => .error e
    | .ok members =>
      match getItem injson ("owner_id") with
      | .error e => .error e
      | .ok owner_id =>
        match getItem injson ("event") with
        | .error e => .error e
        | .ok event_year =>
          .ok { members := members, owner_id := owner_id,
                event_year := event_year, last_updated := now }

/-- AocLeaderboard._update: rebuilds and replaces only the members field of
the existing object; owner_id, event_year and last_updated are untouched. -/
def update (lb : AocLeaderboard) (injson : Json) : Except PyError AocLeaderboard :=
  match getItem injson ("members") with
  | .error e => .error e
  | .ok membersJson =>
    match sorted_members membersJson with
    | .error e => .error e
    | .ok members => .ok { lb with members := members }

/-- AocLeaderboard.top_n: the Python slice members[:n]. -/
def top_n (lb : AocLeaderboard) (n : Int) : List AocMember :=
  pySliceTo lb.members n

end AocLeaderboard

/-- One HTTP response from the leaderboard endpoint. -/
structure HttpResponse where
  status : Nat
  body : Json

/-- Outcome of one network attempt: a response, or a transport-level failure
(timeout, connection reset, DNS) raised by the client library. -/
inductive FetchOutcome where
  | response (resp : HttpResponse)
  | transportError

/-- Failures of AocLeaderboard.json_from_url.  raise_for_status raises only
for statuses of at least 400; on a non-200 status below 400 the source falls
through to return the never-assigned raw_dict local, an UnboundLocalError.
Every constructor is an exception propagating out of json_from_url. -/
inductive FetchError where
  | httpStatus (code : Nat)
  | transport
  | unboundLocal
deriving DecidableEq

/-- AocLeaderboard.json_from_url as a function of the network outcome: only a
200 response returns its parsed body, everything else raises. -/
def json_from_url (outcome : FetchOutcome) : Except FetchError Json :=
  match outcome with
  | .response resp =>
    if resp.status = 200 then .ok resp.body
    else if 400 ≤ resp.status then .error (.httpStatus resp.status)
    else .error .unboundLocal
  | .transportError => .error .transport

/-- An exception escaping one iteration of aoc_update_loop: either the fetch
raised, or the build/update of the leaderboard raised. -/
inductive LoopError where
  | fetch (e : FetchError)
  | build (e : PyError)

/-- One iteration of the body of AdventOfCode.aoc_update_loop: fetch, then
either update the cached leaderboard in place or construct the first one.
The while-loop body contains no exception handler, so any error value here is
an exception propagating out of the loop. -/
def aoc_update_iter (outcome : FetchOutcome) (cached : Option AocLeaderboard)
    (now : Nat) : Except LoopError (Option AocLeaderboard) :=
  match json_from_url outcome with
  | .error e => .error (.fetch e)
  | .ok raw_json =>
    match cached with
    | some lb =>
      match lb.update raw_json with
      | .error e => .error (.build e)
      | .ok lb2 => .ok (some lb2)
    | none =>
      match AocLeaderboard.from_json raw_json now with
      | .error e => .error (.build e)
      | .ok lb => .ok (some lb)

/-- The refresh loop run against a finite schedule of fetch outcomes, one per
tick.  The Bool records whether an exception escaped the while-loop and
terminated it; once that happens no later tick is processed, and the cache
keeps whatever value it had before the failing iteration. -/
def run_loop : List (FetchOutcome × Nat) → Option AocLeaderboard →
    Option AocLeaderboard × Bool
  | [], cached => (cached, false)
  | (outcome, now) :: rest, cached =>
    match aoc_update_iter outcome cached now with
    | .ok cached2 => run_loop rest cached2
    | .error _ => (cached, true)

/-- Caller-visible result of the leaderboard command: the no-cache apology, or
a listing with the redirect notice flag, the final entry count and the
members shown. -/
inductive CommandReply where
  | noCache
  | listing (redirected : Bool) (n_disp : Int) (shown : List AocMember)

/-- AdventOfCode.aoc_leaderboard: no cached leaderboard yields the apology;
otherwise the source tests not (0 <= n_disp <= 10), on failure of that test
sends the redirect message and resets n_disp to 10, and finally shows
top_n(n_disp).  Note that the guard admits n_disp = 0 unchanged. -/
def aoc_leaderboard (cached_leaderboard : Option AocLeaderboard) (n_disp : Int) :
    CommandReply :=
  match cached_leaderboard with
  | none => .noCache
  | some lb =>
    if 0 ≤ n_disp ∧ n_disp ≤ 10 then .listing false n_disp (lb.top_n n_disp)
    else .listing true 10 (lb.top_n 10)

/-- AdventOfCode.reauthenticate: result is the cookie value after the call and
the chat messages actually delivered to the invoker.  With the environment
variable present the global cookie is replaced wholesale.  On KeyError the
source logs a warning and evaluates ctx.send(...) WITHOUT awaiting it, so the
coroutine never runs and no message reaches the invoker; no exception leaves
the handler either.  Hence the delivered-message list is empty on both
paths. -/
def reauthenticate (env_cookie : Option String) (current_cookie : String) :
    String × List String :=
  match env_cookie with
  | some v => (v, [])
  | none => (current_cookie, [])

/-! Concrete fixtures used by witnesses and counterexamples. -/

/-- A fresh 25-slot starboard. -/
def emptyBoard : List (Bool × Bool) := List.replicate 25 (false, false)

/-- A raw member object with the given name, id string and local score, no
completed days. -/
def exMemberJson (name : String) (id : String) (ls : Int) : Json :=
  Json.obj
    [(("name"), Json.str name), (("id"), Json.str id), (("stars"), Json.num 0),
     (("completion_day_level"), Json.obj []),
     (("local_score"), Json.num ls), (("global_score"), Json.num 0)]

/-- The member that exMemberJson builds. -/
def exMember (name : String) (id : Int) (ls : Int) : AocMember :=
  AocMember.ofFields (Json.str name) id (Json.num 0) emptyBoard ls (Json.num 0)

/-- A raw leaderboard with one member of the given name/id/score. -/
def exRawBoard (name : String) (id : String) (ls : Int) : Json :=
  Json.obj
    [(("members"), Json.obj [((id), exMemberJson name id ls)]),
     (("owner_id"), Json.num 1), (("event"), Json.str ("2018"))]

/-- A cached leaderboard value with the given members and timestamp. -/
def exBoard (members : List AocMember) (t : Nat) : AocLeaderboard :=
  { members := members, owner_id := Json.num 1,
    event_year := Json.str ("2018"), last_updated := t }

/-- Ten distinct members with descending scores. -/
def exTenMembers : List AocMember :=
  (List.range 10).map (fun i => exMember ("user") (i : Int) (10 - (i : Int)))

/-!
Claim theorems and their witnesses.
-/

/-- C1: the claim says a failed fetch leaves the cache unchanged and the loop
re-enters its sleep to retry on the next tick.  On the code, the cache is
indeed unchanged, but aoc_update_loop has no exception handler: the error
raised by json_from_url propagates out of the while-loop and terminates it,
so a later good response is never fetched.  This theorem evaluates the loop
at the failing input: the iteration yields the propagating exception, and the
two-tick run stops crashed after the first tick with the cache untouched. -/
theorem fetch_failure_kills_update_loop :
    aoc_update_iter (FetchOutcome.response ⟨500, Json.null⟩) (some (exBoard [] 0)) 3 =
      Except.error (LoopError.fetch (FetchError.httpStatus 500)) ∧
    run_loop
      [(FetchOutcome.response ⟨500, Json.null⟩, 3),
       (FetchOutcome.response ⟨200, exRawBoard ("alice") ("7") 3⟩, 4)]
      (some (exBoard [] 0)) = (some (exBoard [] 0), true) :=
  ⟨rfl, rfl⟩

/-- C2 counterexample: two successful refreshes at times 0 and 1; the claim
demands the snapshot visible after the second refresh be freshly constructed
there, with last_updated = 1, but the code updates the first snapshot in
place and its last_updated stays 0. -/
theorem second_refresh_keeps_first_timestamp :
    Option.map AocLeaderboard.last_updated
      (run_loop
        [(FetchOutcome.response ⟨200, exRawBoard ("alice") ("7") 3⟩, 0),
         (FetchOutcome.response ⟨200, exRawBoard ("alice") ("7") 5⟩, 1)] none).1 =
      some 0 ∧
    (run_loop
      [(FetchOutcome.response ⟨200, exRawBoard ("alice") ("7") 3⟩, 0),
       (FetchOutcome.response ⟨200, exRawBoard ("alice") ("7") 5⟩, 1)] none).2 = false ∧
    (0 : Nat) ≠ 1 :=
  ⟨rfl, rfl, by decide⟩

/-- C4 counterexample: a mapping whose only day key is the string 0 produces a
grid whose slot 24 is not (false, false), although day 25 is absent from the
input; the claim's absent-day clause fails as universally stated. -/
theorem starboard_day_zero_marks_day25_slot :
    AocMember.starboard_from_json (Json.obj [(("0"), Json.obj [])]) =
      Except.ok (emptyBoard.set 24 (true, false)) ∧
    (emptyBoard.set 24 (true, false))[24]? ≠ some (false, false) :=
  ⟨rfl, by decide⟩

/-- C7: the guard in the source is not 0 <= n_disp <= 10 negated over [1, 10]
but over [0, 10]: a request for 0 entries is outside the claimed valid range
[1, 10] yet is NOT clamped to 10 — the command replies with an empty Top 0
listing and no redirect.  A request for 15 entries is clamped to 10 with the
redirect notice, returning all 10 members of a 10-member cache. -/
theorem leaderboard_cmd_zero_not_clamped :
    aoc_leaderboard (some (exBoard exTenMembers 0)) 0 =
      CommandReply.listing false 0 [] ∧
    aoc_leaderboard (some (exBoard exTenMembers 0)) 15 =
      CommandReply.listing true 10 exTenMembers ∧
    exTenMembers.length = 10 :=
  ⟨rfl, rfl, rfl⟩

/-- C8: every non-mapping input to the starboard parser fails with ValueError
(the spec's InvalidInputError), and no grid is returned. -/
theorem starboard_rejects_non_mapping (j : Json) (h : j.isObj = false) :
    AocMember.starboard_from_json j = Except.error PyError.valueError := by
  cases j with
  | obj entries => simp [Json.isObj] at h
  | null => rfl
  | bool b => rfl
  | num n => rfl
  | str s => rfl
  | arr elems => rfl

/-- Witness for C8 at the spec's example, a string in place of the mapping. -/
theorem starboard_rejects_non_mapping_w :
    Json.isObj (Json.str ("not an object")) = false ∧
    AocMember.starboard_from_json (Json.str ("not an object")) =
      Except.error PyError.valueError :=
  ⟨rfl, starboard_rejects_non_mapping (Json.str ("not an object")) rfl⟩

/-- C9: with the environment variable absent, the prior credential is kept
(the KeyError fires before any assignment), but the delivered-message list is
empty: the ctx.send on the failure path is never awaited, so nothing is
surfaced to the invoker, and no error is raised to it either. -/
theorem reauthenticate_missing_env_keeps_cookie_sends_nothing :
    reauthenticate none ("prior-session-cookie") = (("prior-session-cookie"), []) :=
  rfl

/-- C10: no range validation on day keys.  Day key 0 yields index -1, which
Python list assignment resolves to the last slot: the day-25 slot is marked
completed although day 25 is absent.  Day key 26 yields index 25, an
IndexError — not the ValueError that stands for InvalidInputError. -/
theorem starboard_day_out_of_range_behavior :
    AocMember.starboard_from_json
        (Json.obj [(("0"), Json.obj [(("1"), Json.null)])]) =
      Except.ok (emptyBoard.set 24 (true, false)) ∧
    (emptyBoard.set 24 (true, false))[24]? = some (true, false) ∧
    AocMember.starboard_from_json
        (Json.obj [(("26"), Json.obj [(("1"), Json.null)])]) =
      Except.error PyError.indexError ∧
    PyError.indexError ≠ PyError.valueError :=
  ⟨rfl, by decide, rfl, by decide⟩

/-!
Properties of the stable descending sort.
-/

/-- Membership in an insertion. -/
theorem mem_insertByScore {x a : AocMember} :
    ∀ {l : List AocMember}, x ∈ insertByScore a l ↔ x = a ∨ x ∈ l := by
  intro l
  induction l with
  | nil => simp [insertByScore]
  | cons b rest ih =>
    simp only [insertByScore]
    split
    · simp only [List.mem_cons, ih]
      tauto
    · simp only [List.mem_cons]

/-- Insertion grows the length by one. -/
theorem length_insertByScore (a : AocMember) :
    ∀ l : List AocMember, (insertByScore a l).length = l.length + 1 := by
  intro l
  induction l with
  | nil => rfl
  | cons b rest ih =>
    simp only [insertByScore]
    split
    · simp [ih]
    · simp

/-- The sort preserves length. -/
theorem length_sortByScore : ∀ l : List AocMember, (sortByScore l).length = l.length := by
  intro l
  induction l with
  | nil => rfl
  | cons a rest ih =>
    simp only [sortByScore]
    rw [length_insertByScore, ih]
    simp

/-- Insertion preserves the descending order. -/
theorem pairwise_insertByScore (a : AocMember) :
    ∀ l : List AocMember,
      List.Pairwise (fun x y => y.local_score ≤ x.local_score) l →
      List.Pairwise (fun x y => y.local_score ≤ x.local_score) (insertByScore a l) := by
  intro l
  induction l with
  | nil => intro _; simp [insertByScore]
  | cons b rest ih =>
    intro h
    rw [List.pairwise_cons] at h
    obtain ⟨hb, hrest⟩ := h
    simp only [insertByScore]
    split
    · next hab =>
      rw [List.pairwise_cons]
      refine ⟨?_, ih hrest⟩
      intro y hy
      rcases mem_insertByScore.mp hy with rfl | hy2
      · exact le_of_lt hab
      · exact hb y hy2
    · next hab =>
      rw [List.pairwise_cons]
      refine ⟨?_, List.pairwise_cons.mpr ⟨hb, hrest⟩⟩
      intro y hy
      rcases List.mem_cons.mp hy with rfl | hy2
      · exact le_of_not_lt hab
      · exact le_trans (hb y hy2) (le_of_not_lt hab)

/-- The sorted list is non-increasing in local_score. -/
theorem sortByScore_pairwise :
    ∀ l : List AocMember,
      List.Pairwise (fun x y => y.local_score ≤ x.local_score) (sortByScore l) := by
  intro l
  induction l with
  | nil => simp [sortByScore]
  | cons a rest ih => exact pairwise_insertByScore a _ ih

/-- Stability of insertion: restricted to any one score value, inserting in
front of the strictly-smaller elements is the same as consing in front. -/
theorem filter_insertByScore (a : AocMember) (s : Int) :
    ∀ l : List AocMember,
      (insertByScore a l).filter (fun m => m.local_score == s) =
        (a :: l).filter (fun m => m.local_score == s) := by
  intro l
  induction l with
  | nil => rfl
  | cons b rest ih =>
    simp only [insertByScore]
    split
    · next hab =>
      by_cases pa : a.local_score = s
      · by_cases pb : b.local_score = s
        · exact absurd (pa.trans pb.symm) (ne_of_lt hab)
        · simp [List.filter_cons, beq_iff_eq, pa, pb, ih]
      · by_cases pb : b.local_score = s
        · simp [List.filter_cons, beq_iff_eq, pa, pb, ih]
        · simp [List.filter_cons, beq_iff_eq, pa, pb, ih]
    · rfl

/-- Stability of the sort: for every score value, the elements carrying that
score appear in the sorted list exactly in their original order. -/
theorem filter_sortByScore (s : Int) :
    ∀ l : List AocMember,
      (sortByScore l).filter (fun m => m.local_score == s) =
        l.filter (fun m => m.local_score == s) := by
  intro l
  induction l with
  | nil => rfl
  | cons a rest ih =>
    simp only [sortByScore]
    rw [filter_insertByScore]
    simp [List.filter_cons, ih]

/-- A successful comprehension yields one output per input. -/
theorem mapExcept_ok_length {α β : Type} (f : α → Except PyError β) :
    ∀ (l : List α) (bs : List β), mapExcept f l = Except.ok bs → bs.length = l.length := by
  intro l
  induction l with
  | nil =>
    intro bs h
    cases h
    rfl
  | cons a rest ih =>
    intro bs h
    simp only [mapExcept] at h
    cases hfa : f a with
    | error e => rw [hfa] at h; exact Except.noConfusion h
    | ok b =>
      rw [hfa] at h
      cases hrest : mapExcept f rest with
      | error e => rw [hrest] at h; exact Except.noConfusion h
      | ok bs2 =>
        rw [hrest] at h
        cases h
        simp [ih bs2 hrest]

/-- C3: for a members mapping whose N member objects all build, the snapshot's
member sequence is the stable descending sort of the built members: it has
exactly N records, is non-increasing in local_score, and members of equal
local_score keep their input order. -/
theorem snapshot_sorted_and_stable (entries : List (String × Json)) (built : List AocMember)
    (h : mapExcept (fun entry => AocMember.member_from_json entry.2) entries =
      Except.ok built) :
    AocLeaderboard.sorted_members (Json.obj entries) = Except.ok (sortByScore built) ∧
    (sortByScore built).length = entries.length ∧
    List.Pairwise (fun x y => y.local_score ≤ x.local_score) (sortByScore built) ∧
    ∀ s : Int,
      (sortByScore built).filter (fun m => m.local_score == s) =
        built.filter (fun m => m.local_score == s) := by
  refine ⟨?_, ?_, sortByScore_pairwise built, fun s => filter_sortByScore s built⟩
  · simp only [AocLeaderboard.sorted_members]
    rw [h]
  · rw [length_sortByScore, mapExcept_ok_length _ entries built h]

/-- Three raw members, with a score tie between the first and third. -/
def exStableEntries : List (String × Json) :=
  [(("1"), exMemberJson ("ann") ("1") 5), (("2"), exMemberJson ("bob") ("2") 9),
   (("3"), exMemberJson ("cyd") ("3") 5)]

/-- The members exStableEntries builds, in input order. -/
def exStableBuilt : List AocMember :=
  [exMember ("ann") 1 5, exMember ("bob") 2 9, exMember ("cyd") 3 5]

/-- Witness for C3 on a three-member mapping with a tied score, with the
stability clause instantiated at the tied score value 5. -/
theorem snapshot_sorted_and_stable_w :
    AocLeaderboard.sorted_members (Json.obj exStableEntries) =
      Except.ok (sortByScore exStableBuilt) ∧
    (sortByScore exStableBuilt).length = exStableEntries.length ∧
    List.Pairwise (fun x y => y.local_score ≤ x.local_score) (sortByScore exStableBuilt) ∧
    (sortByScore exStableBuilt).filter (fun m => m.local_score == 5) =
      exStableBuilt.filter (fun m => m.local_score == 5) := by
  obtain ⟨h1, h2, h3, h4⟩ := snapshot_sorted_and_stable exStableEntries exStableBuilt rfl
  exact ⟨h1, h2, h3, h4 5⟩

/-!
Completion counting and the starboard invariant.
-/

/-- The completion fold, generalized over its accumulator. -/
theorem completions_fold_aux :
    ∀ (sb : List (Bool × Bool)) (c : Nat × Nat),
      sb.foldl
        (fun completions day =>
          ((if day.1 then completions.1 + 1 else completions.1),
           (if day.2 then completions.2 + 1 else completions.2))) c =
      (c.1 + sb.countP (fun day => day.1), c.2 + sb.countP (fun day => day.2)) := by
  intro sb
  induction sb with
  | nil => intro c; simp
  | cons day rest ih =>
    intro c
    rw [List.foldl_cons, ih]
    rcases day with ⟨p1, p2⟩
    cases p1 <;> cases p2 <;> simp [List.countP_cons] <;> omega

/-- The stored completion summary is exactly the direct count over the grid. -/
theorem completions_eq_counts (sb : List (Bool × Bool)) :
    AocMember.completions_from_starboard sb =
      (sb.countP (fun day => day.1), sb.countP (fun day => day.2)) := by
  simp only [AocMember.completions_from_starboard]
  rw [completions_fold_aux]
  simp

/-- C5: for every raw member JSON that builds, the member's completion summary
is the pair of direct counts over the 25-slot grid built from that input. -/
theorem member_completions_match_grid (injson : Json) (m : AocMember)
    (h : AocMember.member_from_json injson = Except.ok m) :
    m.completions =
      (m.starboard.countP (fun day => day.1), m.starboard.countP (fun day => day.2)) := by
  simp only [AocMember.member_from_json] at h
  repeat' split at h
  all_goals
    first
    | exact Except.noConfusion h
    | (cases h; exact completions_eq_counts _)

/-- The member built from the spec's anonymous-member example. -/
def exAnonMember : AocMember :=
  AocMember.ofFields (Json.str ("Anonymous User")) 42 (Json.num 3) emptyBoard 100
    (Json.num 5)

/-- The spec's anonymous-member example JSON. -/
def exAnonJson : Json :=
  Json.obj
    [(("name"), Json.str ("")), (("id"), Json.str ("42")), (("stars"), Json.num 3),
     (("completion_day_level"), Json.obj []),
     (("local_score"), Json.num 100), (("global_score"), Json.num 5)]

/-- Witness for C5 at the spec's example member. -/
theorem member_completions_match_grid_w :
    exAnonMember.completions =
      (exAnonMember.starboard.countP (fun day => day.1),
       exAnonMember.starboard.countP (fun day => day.2)) :=
  member_completions_match_grid exAnonJson exAnonMember rfl

/-- Each slot written by the day loop has its first component true, so the
loop preserves the second-implies-first invariant of the grid. -/
theorem starboardLoop_two_implies_one :
    ∀ (entries : List (String × Json)) (grid g : List (Bool × Bool)),
      (∀ p ∈ grid, p.2 = true → p.1 = true) →
      AocMember.starboardLoop entries grid = Except.ok g →
      ∀ p ∈ g, p.2 = true → p.1 = true := by
  intro entries
  induction entries with
  | nil =>
    intro grid g hinv h
    simp only [AocMember.starboardLoop] at h
    cases h
    exact hinv
  | cons entry rest ih =>
    intro grid g hinv h
    obtain ⟨day, dayVal⟩ := entry
    simp only [AocMember.starboardLoop] at h
    cases hp : pyParseInt day with
    | none => simp only [hp] at h; exact Except.noConfusion h
    | some d =>
      simp only [hp] at h
      cases hk : dictKeys dayVal with
      | error e => simp only [hk] at h; exact Except.noConfusion h
      | ok levels =>
        simp only [hk] at h
        cases hs : pySet grid (d - 1) (true, levels.contains ("2")) with
        | none => simp only [hs] at h; exact Except.noConfusion h
        | some grid2 =>
          simp only [hs] at h
          refine ih grid2 g ?_ h
          obtain ⟨j, rfl⟩ : ∃ j, grid2 = grid.set j (true, levels.contains ("2")) := by
            simp only [pySet] at hs
            split at hs
            · split at hs
              · injection hs with hs2
                exact ⟨_, hs2.symm⟩
              · exact Option.noConfusion hs
            · split at hs
              · injection hs with hs2
                exact ⟨_, hs2.symm⟩
              · exact Option.noConfusion hs
          intro p hmem h2
          rcases List.mem_or_eq_of_mem_set hmem with hmem2 | rfl
          · exact hinv p hmem2 h2
          · rfl

/-- C6: every grid the starboard parser returns satisfies, in each of its
slots, that a completed part two implies a completed part one. -/
theorem starboard_two_implies_one (injson : Json) (g : List (Bool × Bool))
    (h : AocMember.starboard_from_json injson = Except.ok g) :
    ∀ p ∈ g, p.2 = true → p.1 = true := by
  cases injson with
  | obj entries =>
    simp only [AocMember.starboard_from_json] at h
    refine starboardLoop_two_implies_one entries _ g ?_ h
    intro p hmem
    have hp : p = (false, false) := List.eq_of_mem_replicate hmem
    rw [hp]
    intro h2
    simp at h2
  | null => exact Except.noConfusion h
  | bool b => exact Except.noConfusion h
  | num n => exact Except.noConfusion h
  | str s => exact Except.noConfusion h
  | arr elems => exact Except.noConfusion h

/-- Witness for C6 at the fully-completed day-3 slot of a parsed grid. -/
theorem starboard_two_implies_one_w :
    (true, true) ∈ emptyBoard.set 2 (true, true) ∧
    ((true, true) : Bool × Bool).1 = true :=
  ⟨by decide,
   starboard_two_implies_one
     (Json.obj [(("3"), Json.obj [(("1"), Json.null), (("2"), Json.null)])])
     (emptyBoard.set 2 (true, true)) rfl (true, true) (by decide) rfl⟩

/-!
Characterization of the starboard grid for in-range day keys, and the
timestamp behaviour of the refresh iteration.
-/

/-- A list assignment at a non-negative in-range index. -/
theorem pySet_in_range {α : Type} (l : List α) (i : Int) (x : α)
    (h0 : 0 ≤ i) (h1 : i < (l.length : Int)) :
    pySet l i x = some (l.set i.toNat x) := by
  have hneg : ¬ i < 0 := by omega
  simp only [pySet, if_neg hneg]
  rw [if_pos ⟨h0, h1⟩]

/-- Day loop on a 25-slot grid whose keys are pairwise-distinct integers in
1..25 with mapping values: it succeeds, and each slot holds the written value
of its day when that day is present and the initial value otherwise. -/
theorem starboardLoop_in_range_spec :
    ∀ (entries : List (String × Json)) (grid : List (Bool × Bool)),
      grid.length = 25 →
      (∀ entry ∈ entries, ∃ d : Nat,
        pyParseInt entry.1 = some (d : Int) ∧ 1 ≤ d ∧ d ≤ 25 ∧ entry.2.isObj = true) →
      (entries.map (fun entry => pyParseInt entry.1)).Nodup →
      ∃ g, AocMember.starboardLoop entries grid = Except.ok g ∧ g.length = 25 ∧
        (∀ day Val (d : Nat), (day, Val) ∈ entries → pyParseInt day = some (d : Int) →
          g[d - 1]? = some (true, hasStar2 Val)) ∧
        (∀ d : Nat, 1 ≤ d → d ≤ 25 →
          (∀ entry ∈ entries, pyParseInt entry.1 ≠ some (d : Int)) →
          g[d - 1]? = grid[d - 1]?) := by
  intro entries
  induction entries with
  | nil =>
    intro grid hlen _ _
    refine ⟨grid, rfl, hlen, ?_, ?_⟩
    · intro day Val d hmem
      exact absurd hmem (List.not_mem_nil _)
    · intro d _ _ _
      rfl
  | cons entry rest ih =>
    intro grid hlen hvalid hdays
    obtain ⟨day0, v0⟩ := entry
    obtain ⟨d0, hparse0, hd0lo, hd0hi, hobj0⟩ := hvalid _ (List.mem_cons_self _ _)
    obtain ⟨es, rfl⟩ : ∃ es, v0 = Json.obj es := by
      cases v0 with
      | obj es => exact ⟨es, rfl⟩
      | null => simp [Json.isObj] at hobj0
      | bool b => simp [Json.isObj] at hobj0
      | num n => simp [Json.isObj] at hobj0
      | str s => simp [Json.isObj] at hobj0
      | arr elems => simp [Json.isObj] at hobj0
    have hsetIdx : ((d0 : Int) - 1).toNat = d0 - 1 := by omega
    have hset : pySet grid ((d0 : Int) - 1) (true, (es.map Prod.fst).contains ("2")) =
        some (grid.set (d0 - 1) (true, (es.map Prod.fst).contains ("2"))) := by
      rw [pySet_in_range _ _ _ (by omega) (by rw [hlen]; omega), hsetIdx]
    have hvalid2 : ∀ entry ∈ rest, ∃ d : Nat,
        pyParseInt entry.1 = some (d : Int) ∧ 1 ≤ d ∧ d ≤ 25 ∧ entry.2.isObj = true :=
      fun e he => hvalid e (List.mem_cons_of_mem _ he)
    simp only [List.map_cons] at hdays
    obtain ⟨hnotmem, hdaysRest⟩ := List.nodup_cons.mp hdays
    obtain ⟨g, hg, hglen, hpres, habs⟩ :=
      ih (grid.set (d0 - 1) (true, (es.map Prod.fst).contains ("2")))
        (by rw [List.length_set]; exact hlen) hvalid2 hdaysRest
    refine ⟨g, ?_, hglen, ?_, ?_⟩
    · simp only [AocMember.starboardLoop, hparse0, dictKeys, hset]
      exact hg
    · intro day Val d hmem hparse
      rcases List.mem_cons.mp hmem with heq | hmem2
      · injection heq with ha hb
        subst ha
        subst hb
        have hd : d = d0 := by
          injection hparse.symm.trans hparse0 with hc
          exact_mod_cast hc
        subst hd
        have habs0 : ∀ entry ∈ rest, pyParseInt entry.1 ≠ some ((d : Nat) : Int) := by
          intro e he hcontra
          exact hnotmem (List.mem_map.mpr ⟨e, he, hcontra.trans hparse0.symm⟩)
        rw [habs d hd0lo hd0hi habs0]
        rw [List.getElem?_set_eq_of_lt _ (by rw [hlen]; omega)]
        rfl
      · exact hpres day Val d hmem2 hparse
    · intro d h1 h2 habsent
      have hne : pyParseInt day0 ≠ some ((d : Nat) : Int) :=
        habsent (day0, Json.obj es) (List.mem_cons_self _ _)
      have habs2 : ∀ entry ∈ rest, pyParseInt entry.1 ≠ some ((d : Nat) : Int) :=
        fun e he => habsent e (List.mem_cons_of_mem _ he)
      have hdd0 : d ≠ d0 := fun hcontra => hne (by rw [hcontra]; exact hparse0)
      rw [habs d h1 h2 habs2]
      rw [List.getElem?_set_ne (by omega)]

/-- C4 amended: when every day key of the mapping is a numeric string whose
integer value lies in 1..25 and whose value is itself a mapping, with no two
keys naming the same day, the parser returns a grid of exactly 25 slots in
which the slot of a present day d is (true, x) with x recording whether star
level 2 occurs in that day's key set, and the slot of every absent day is
(false, false). -/
theorem starboard_in_range_spec (entries : List (String × Json))
    (hvalid : ∀ entry ∈ entries, ∃ d : Nat,
      pyParseInt entry.1 = some (d : Int) ∧ 1 ≤ d ∧ d ≤ 25 ∧ entry.2.isObj = true)
    (hdays : (entries.map (fun entry => pyParseInt entry.1)).Nodup) :
    ∃ g, AocMember.starboard_from_json (Json.obj entries) = Except.ok g ∧
      g.length = 25 ∧
      (∀ day Val (d : Nat), (day, Val) ∈ entries → pyParseInt day = some (d : Int) →
        g[d - 1]? = some (true, hasStar2 Val)) ∧
      (∀ d : Nat, 1 ≤ d → d ≤ 25 →
        (∀ entry ∈ entries, pyParseInt entry.1 ≠ some (d : Int)) →
        g[d - 1]? = some (false, false)) := by
  obtain ⟨g, hg, hglen, hpres, habs⟩ :=
    starboardLoop_in_range_spec entries (List.replicate 25 (false, false)) (by simp)
      hvalid hdays
  refine ⟨g, hg, hglen, hpres, ?_⟩
  intro d h1 h2 habsent
  rw [habs d h1 h2 habsent]
  have hlt : d - 1 < 25 := by omega
  rw [List.getElem?_replicate, if_pos hlt]

/-- The spec's example day mapping: day 1 with one star, day 2 with both. -/
def exGridEntries : List (String × Json) :=
  [(("1"), Json.obj [(("1"), Json.null)]),
   (("2"), Json.obj [(("1"), Json.null), (("2"), Json.null)])]

/-- The grid the spec's example day mapping parses to. -/
def exGrid : List (Bool × Bool) := (emptyBoard.set 0 (true, false)).set 1 (true, true)

/-- Witness for C4 at the spec's example day mapping, instantiated at the
present days 1 and 2 and the absent days 3 and 25. -/
theorem starboard_in_range_spec_w :
    AocMember.starboard_from_json (Json.obj exGridEntries) = Except.ok exGrid ∧
    exGrid.length = 25 ∧
    exGrid[0]? = some (true, false) ∧
    exGrid[1]? = some (true, true) ∧
    exGrid[2]? = some (false, false) ∧
    exGrid[24]? = some (false, false) := by
  obtain ⟨g, hg, hglen, hpres, habs⟩ :=
    starboard_in_range_spec exGridEntries
      (by
        intro entry hmem
        fin_cases hmem
        · exact ⟨1, by decide, by decide, by decide, by decide⟩
        · exact ⟨2, by decide, by decide, by decide, by decide⟩)
      (by decide)
  have hgeq : g = exGrid := by
    have hg0 : AocMember.starboard_from_json (Json.obj exGridEntries) =
        Except.ok exGrid := rfl
    injection hg0.symm.trans hg with heq
    exact heq.symm
  subst hgeq
  refine ⟨hg, hglen, ?_, ?_, ?_, ?_⟩
  · exact hpres ("1") (Json.obj [(("1"), Json.null)]) 1
      (List.mem_cons_self _ _) (by decide)
  · exact hpres ("2") (Json.obj [(("1"), Json.null), (("2"), Json.null)]) 2
      (List.mem_cons_of_mem _ (List.mem_cons_self _ _)) (by decide)
  · exact habs 3 (by decide) (by decide) (by decide)
  · exact habs 25 (by decide) (by decide) (by decide)

/-- A successful from_json stamps last_updated with its construction time. -/
theorem from_json_stamps_now (injson : Json) (now : Nat) (lb : AocLeaderboard)
    (h : AocLeaderboard.from_json injson now = Except.ok lb) :
    lb.last_updated = now := by
  simp only [AocLeaderboard.from_json] at h
  cases h1 : getItem injson ("members") with
  | error e => simp only [h1] at h; exact Except.noConfusion h
  | ok mj =>
    simp only [h1] at h
    cases h2 : AocLeaderboard.sorted_members mj with
    | error e => simp only [h2] at h; exact Except.noConfusion h
    | ok ms =>
      simp only [h2] at h
      cases h3 : getItem injson ("owner_id") with
      | error e => simp only [h3] at h; exact Except.noConfusion h
      | ok oid =>
        simp only [h3] at h
        cases h4 : getItem injson ("event") with
        | error e => simp only [h4] at h; exact Except.noConfusion h
        | ok ev =>
          simp only [h4] at h
          cases h
          rfl

/-- A successful in-place update replaces only the member list: owner,
event year and (in particular) last_updated are those of the old object. -/
theorem update_keeps_metadata (lb : AocLeaderboard) (injson : Json)
    (lb2 : AocLeaderboard) (h : lb.update injson = Except.ok lb2) :
    lb2.last_updated = lb.last_updated ∧ lb2.owner_id = lb.owner_id ∧
      lb2.event_year = lb.event_year := by
  simp only [AocLeaderboard.update] at h
  cases h1 : getItem injson ("members") with
  | error e => simp only [h1] at h; exact Except.noConfusion h
  | ok mj =>
    simp only [h1] at h
    cases h2 : AocLeaderboard.sorted_members mj with
    | error e => simp only [h2] at h; exact Except.noConfusion h
    | ok ms =>
      simp only [h2] at h
      cases h
      exact ⟨rfl, rfl, rfl⟩

/-- C2 amended: a successful refresh that finds no cached leaderboard
constructs a fresh snapshot whose last_updated is that refresh's construction
time; a successful refresh that finds a cached leaderboard updates that
object in place, leaving last_updated (and the owner and event metadata)
exactly as first constructed — not the time of the present refresh. -/
theorem refresh_timestamp_behavior (outcome : FetchOutcome)
    (cached : Option AocLeaderboard) (now : Nat) (lb2 : AocLeaderboard)
    (h : aoc_update_iter outcome cached now = Except.ok (some lb2)) :
    lb2.last_updated = (match cached with | some lb => lb.last_updated | none => now) ∧
    (match cached with
     | some lb => lb2.owner_id = lb.owner_id ∧ lb2.event_year = lb.event_year
     | none => True) := by
  simp only [aoc_update_iter] at h
  cases hf : json_from_url outcome with
  | error e => simp only [hf] at h; exact Except.noConfusion h
  | ok raw =>
    simp only [hf] at h
    cases cached with
    | some lb =>
      cases hu : lb.update raw with
      | error e => simp only [hu] at h; exact Except.noConfusion h
      | ok lb3 =>
        simp only [hu] at h
        injection h with h5
        injection h5 with h6
        subst h6
        exact update_keeps_metadata lb raw lb3 hu
    | none =>
      cases hb : AocLeaderboard.from_json raw now with
      | error e => simp only [hb] at h; exact Except.noConfusion h
      | ok lb3 =>
        simp only [hb] at h
        injection h with h5
        injection h5 with h6
        subst h6
        exact ⟨from_json_stamps_now raw now lb3 hb, trivial⟩

/-- Witness for C2's amended claim: a refresh at time 9 against a cache built
at time 4 keeps last_updated = 4 and the old metadata. -/
theorem refresh_timestamp_behavior_w :
    (exBoard [exMember ("alice") 7 3] 4).last_updated = (exBoard [] 4).last_updated ∧
    ((exBoard [exMember ("alice") 7 3] 4).owner_id = (exBoard [] 4).owner_id ∧
     (exBoard [exMember ("alice") 7 3] 4).event_year = (exBoard [] 4).event_year) :=
  refresh_timestamp_behavior (FetchOutcome.response ⟨200, exRawBoard ("alice") ("7") 3⟩)
    (some (exBoard [] 4)) 9 (exBoard [exMember ("alice") 7 3] 4) rfl
